import Mathlib

/-!
Shallow embedding of `cert-manager-webhook-bunny` (`src/main.go`), an ACME
DNS-01 challenge solver for the Bunny DNS API.

The remote Bunny API and the cluster secret store are external collaborators;
they are modelled as function parameters:
  * zone listing as `listPages : Nat → Except String ZonesPage`
    (page number ↦ response or transport error),
  * full zone fetch as `getZone : Int → Except String (List DNSRecord)`,
  * the outcomes of the add/delete mutations as `Except String Unit` values,
  * the secret store as `namespace → name → Except String data`.
The pagination loop of `resolveZoneId` is not structurally terminating (it
trusts the remote `HasMoreItems` flag), so it is embedded with an explicit
fuel parameter; a `none` result means the loop was still running when the
fuel ran out.  Mutation calls issued to the remote API are recorded in a
trace so that statements such as "issues exactly one delete call" are
expressible.
-/

deriving instance DecidableEq for Except

/-- Go `strings.TrimSuffix`: drop `suffix` from the end of `s` when present,
otherwise return `s` unchanged.  Stated on the character list of the string so
that it computes by structural recursion. -/
def trimSuffix (s suffix : String) : String :=
  if suffix.data.isSuffixOf s.data then
    ⟨s.data.take (s.data.length - suffix.data.length)⟩
  else s

/-- A DNS zone as returned by the Bunny list endpoint (`bunny.DNSZone` item):
numeric ID plus domain string. -/
structure Zone where
  id : Int
  domain : String
deriving DecidableEq, Repr

/-- One page of the paginated zone listing (`bunny.DNSZones`): the items plus
the `HasMoreItems` continuation flag. -/
structure ZonesPage where
  items : List Zone
  hasMoreItems : Bool
deriving DecidableEq, Repr

/-- A DNS record inside a zone (`bunny.DNSRecord`): ID, numeric type
(TXT = 3), name and value. -/
structure DNSRecord where
  id : Int
  type : Int
  name : String
  value : String
deriving DecidableEq, Repr

/-- One `DNSZone.List` request as issued by the pagination loop: the page
number and the fixed `PerPage` of 3. -/
structure PageRequest where
  page : Nat
  perPage : Nat
deriving DecidableEq, Repr

/-- The inner loop of `resolveZoneId` over one page's items: return the ID of
the first zone whose domain exactly equals `domain`. -/
def findZone (domain : String) : List Zone → Option Int
  | [] => none
  | z :: zs => if z.domain = domain then some z.id else findZone domain zs

/-- The error produced by `resolveZoneId` when pagination is exhausted:
`fmt.Errorf("failed to get zone id from zone name: %s", zoneName)`. -/
def zoneNotFoundMsg (zoneName : String) : String :=
  "failed to get zone id from zone name: " ++ zoneName

/-- The pagination loop body of `resolveZoneId` (main.go lines 166‑183),
fuel-indexed.  `i` is the current page number, `reqs` the `List` requests
issued so far.  A transport error is returned to the caller as-is; a match
short-circuits; a false `HasMoreItems` flag breaks out to the not-found
error; otherwise the loop advances to page `i+1`. -/
def resolveZoneIdGo (listPages : Nat → Except String ZonesPage)
    (zoneName domain : String) :
    Nat → Nat → List PageRequest → Option (Except String Int × List PageRequest)
  | 0, _, _ => none
  | fuel + 1, i, reqs =>
    let reqs2 := reqs ++ [⟨i, 3⟩]
    match listPages i with
    | .error e => some (.error e, reqs2)
    | .ok zones =>
      match findZone domain zones.items with
      | some zid => some (.ok zid, reqs2)
      | none =>
        if zones.hasMoreItems = false then
          some (.error (zoneNotFoundMsg zoneName), reqs2)
        else
          resolveZoneIdGo listPages zoneName domain fuel (i + 1) reqs2

/-- `resolveZoneId` (main.go lines 163‑185): strip one trailing dot from the
zone name and scan the paginated listing from page 1.  Returns the resolved
ID or error, together with the page requests that were issued; `none` means
the loop was still running after `fuel` iterations. -/
def resolveZoneId (listPages : Nat → Except String ZonesPage)
    (zoneName : String) (fuel : Nat) :
    Option (Except String Int × List PageRequest) :=
  resolveZoneIdGo listPages zoneName (trimSuffix zoneName ".") fuel 1 []

/-- The record scan of `hasTXTRecord` (main.go lines 155‑159): first record
with type 3, exactly matching name and exactly matching value. -/
def findTXT (name key : String) : List DNSRecord → Option DNSRecord
  | [] => none
  | r :: rs =>
    if r.type = 3 ∧ r.name = name ∧ r.value = key then some r
    else findTXT name key rs

/-- `hasTXTRecord` (main.go lines 150‑161): fetch the zone (wrapping a fetch
error with context) and scan its records; absence is `.ok none`, not an
error. -/
def hasTXTRecord (getZone : Except String (List DNSRecord))
    (name key : String) : Except String (Option DNSRecord) :=
  match getZone with
  | .error e => .error ("error getting zone records: " ++ e)
  | .ok records => .ok (findTXT name key records)

/-- `corev1.SecretKeySelector`: the name of the secret and the key within
its data. -/
structure SecretKeySelector where
  name : String
  key : String
deriving DecidableEq, Repr

/-- `bunnyConfig`: the solver configuration decoded from the challenge's
embedded JSON. -/
structure bunnyConfig where
  accessKeySecretRef : SecretKeySelector
deriving DecidableEq, Repr

/-- The zero value of `bunnyConfig` (`cfg := bunnyConfig{}`). -/
def zeroBunnyConfig : bunnyConfig := ⟨⟨"", ""⟩⟩

/-- `loadConfig` (main.go lines 112‑121).  The raw JSON blob is modelled by
its decode outcome: `none` is a nil `cfgJSON` (returns the zero config with
no error), `some (.error e)` a blob on which `json.Unmarshal` fails, and
`some (.ok cfg)` a blob decoding to `cfg`. -/
def loadConfig (cfgJSON : Option (Except String bunnyConfig)) :
    Except String bunnyConfig :=
  match cfgJSON with
  | none => .ok zeroBunnyConfig
  | some (.error e) => .error ("error decoding solver config: " ++ e)
  | some (.ok cfg) => .ok cfg

/-- The cluster secret store (external collaborator):
namespace → secret name → secret data (a key/value list) or lookup error. -/
def SecretStore : Type := String → String → Except String (List (String × String))

/-- `getAccessKeyFromSecret` (main.go lines 123‑136): reject an empty secret
name, fetch the secret, and look up the referenced key in its data. -/
def getAccessKeyFromSecret (secretGet : SecretStore)
    (ref : SecretKeySelector) (ns : String) : Except String String :=
  if ref.name = "" then .error "undefined access key secret"
  else
    match secretGet ns ref.name with
    | .error e => .error e
    | .ok data =>
      match data.lookup ref.key with
      | none =>
        .error ("key not found " ++ ref.key ++ " in secret " ++ ns ++ "/" ++ ref.name)
      | some accessKey => .ok accessKey

/-- `v1alpha1.ChallengeRequest`, restricted to the fields this solver reads.
`config` is the embedded JSON blob, modelled as in `loadConfig`. -/
structure ChallengeRequest where
  resolvedFQDN : String
  resolvedZone : String
  key : String
  resourceNamespace : String
  config : Option (Except String bunnyConfig)

/-- `newAPIClient` (main.go lines 138‑148): decode the config, fetch the
access key from the cluster secret store; the resulting "client" is the
access key itself (the real client is just a handle around it). -/
def newAPIClient (secretGet : SecretStore) (ch : ChallengeRequest) :
    Except String String :=
  match loadConfig ch.config with
  | .error e => .error e
  | .ok cfg =>
    match getAccessKeyFromSecret secretGet cfg.accessKeySecretRef ch.resourceNamespace with
    | .error e => .error e
    | .ok accessKey => .ok accessKey

/-- A `DNSZone.AddDNSRecord` call as issued by `Present`: target zone plus
the `AddOrUpdateDNSRecordOptions` fields the solver sets. -/
structure AddRecordCall where
  zoneId : Int
  type : Int
  name : String
  value : String
  ttl : Int
deriving DecidableEq, Repr

/-- A `DNSZone.DeleteDNSRecord` call as issued by `CleanUp`. -/
structure DeleteRecordCall where
  zoneId : Int
  recordId : Int
deriving DecidableEq, Repr

/-- The remote Bunny DNS API, as the behaviour the solver observes during one
invocation: the paginated zone listing, the per-zone record fetch, and the
outcomes of the two mutations. -/
structure BunnyAPI where
  listPages : Nat → Except String ZonesPage
  getZone : Int → Except String (List DNSRecord)
  addResult : Except String Unit
  deleteResult : Except String Unit

/-- The record-name derivation shared by `Present` (line 55) and `CleanUp`
(line 88): strip the resolved zone suffix, then one trailing dot. -/
def recordNameOf (fqdn zone : String) : String :=
  trimSuffix (trimSuffix fqdn zone) "."

/-- `Present` (main.go lines 46‑77).  Returns the call outcome together with
the trace of `AddDNSRecord` calls issued; `none` propagates a non-terminating
zone resolution. -/
def Present (secretGet : SecretStore) (api : BunnyAPI)
    (ch : ChallengeRequest) (fuel : Nat) :
    Option (Except String Unit × List AddRecordCall) :=
  match newAPIClient secretGet ch with
  | .error e => some (.error e, [])
  | .ok _ =>
    match resolveZoneId api.listPages ch.resolvedZone fuel with
    | none => none
    | some (.error e, _) => some (.error e, [])
    | some (.ok zoneID, _) =>
      let recordName := recordNameOf ch.resolvedFQDN ch.resolvedZone
      match hasTXTRecord (api.getZone zoneID) recordName ch.key with
      | .error e => some (.error e, [])
      | .ok (some _) => some (.ok (), [])
      | .ok none =>
        let call : AddRecordCall := ⟨zoneID, 3, recordName, ch.key, 120⟩
        match api.addResult with
        | .error e => some (.error ("failed to add TXT record: " ++ e), [call])
        | .ok _ => some (.ok (), [call])

/-- `CleanUp` (main.go lines 79‑101).  Returns the call outcome together with
the trace of `DeleteDNSRecord` calls issued; `none` propagates a
non-terminating zone resolution. -/
def CleanUp (secretGet : SecretStore) (api : BunnyAPI)
    (ch : ChallengeRequest) (fuel : Nat) :
    Option (Except String Unit × List DeleteRecordCall) :=
  match newAPIClient secretGet ch with
  | .error e => some (.error e, [])
  | .ok _ =>
    match resolveZoneId api.listPages ch.resolvedZone fuel with
    | none => none
    | some (.error e, _) => some (.error e, [])
    | some (.ok zoneID, _) =>
      let recordName := recordNameOf ch.resolvedFQDN ch.resolvedZone
      match hasTXTRecord (api.getZone zoneID) recordName ch.key with
      | .error e => some (.error ("failed to get zone records: " ++ e), [])
      | .ok none => some (.ok (), [])
      | .ok (some record) =>
        let call : DeleteRecordCall := ⟨zoneID, record.id⟩
        match api.deleteResult with
        | .error e => some (.error ("failed to delete TXT record: " ++ e), [call])
        | .ok _ => some (.ok (), [call])

/-! ### Properties of the record scan -/

theorem findTXT_eq_some {name key : String} :
    ∀ {rs : List DNSRecord} {r : DNSRecord}, findTXT name key rs = some r →
      r ∈ rs ∧ r.type = 3 ∧ r.name = name ∧ r.value = key := by
  intro rs
  induction rs with
  | nil => intro r h; simp [findTXT] at h
  | cons a as ih =>
    intro r h
    by_cases hc : a.type = 3 ∧ a.name = name ∧ a.value = key
    · simp [findTXT, hc] at h
      subst h
      exact ⟨List.mem_cons_self a as, hc⟩
    · simp [findTXT, hc] at h
      obtain ⟨hmem, hrest⟩ := ih h
      exact ⟨List.mem_cons_of_mem a hmem, hrest⟩

theorem findTXT_isSome_iff (name key : String) (rs : List DNSRecord) :
    (findTXT name key rs).isSome = true ↔
      ∃ r ∈ rs, r.type = 3 ∧ r.name = name ∧ r.value = key := by
  induction rs with
  | nil => simp [findTXT]
  | cons a as ih =>
    by_cases hc : a.type = 3 ∧ a.name = name ∧ a.value = key
    · simp [findTXT, hc]
    · simp [findTXT, hc, ih]

theorem findTXT_eq_none_iff (name key : String) (rs : List DNSRecord) :
    findTXT name key rs = none ↔
      ∀ r ∈ rs, ¬(r.type = 3 ∧ r.name = name ∧ r.value = key) := by
  constructor
  · intro h r hr hc
    have h2 := (findTXT_isSome_iff name key rs).mpr ⟨r, hr, hc⟩
    rw [h] at h2
    simp at h2
  · intro h
    cases hfind : findTXT name key rs with
    | none => rfl
    | some r =>
      obtain ⟨hmem, ht, hn, hv⟩ := findTXT_eq_some hfind
      exact absurd ⟨ht, hn, hv⟩ (h r hmem)

theorem findTXT_append_match {name key : String} {rs : List DNSRecord}
    (h : findTXT name key rs = none) (r : DNSRecord)
    (hr : r.type = 3 ∧ r.name = name ∧ r.value = key) :
    findTXT name key (rs ++ [r]) = some r := by
  induction rs with
  | nil => simp [findTXT, hr]
  | cons a as ih =>
    by_cases hc : a.type = 3 ∧ a.name = name ∧ a.value = key
    · simp [findTXT, hc] at h
    · simp [findTXT, hc] at h ⊢
      exact ih h

/-! ### Properties of the per-page zone scan -/

theorem findZone_eq_some {d : String} :
    ∀ {zs : List Zone} {zid : Int}, findZone d zs = some zid →
      ∃ pre z post, zs = pre ++ z :: post ∧ z.domain = d ∧ z.id = zid ∧
        ∀ z2 ∈ pre, z2.domain ≠ d := by
  intro zs
  induction zs with
  | nil => intro zid h; simp [findZone] at h
  | cons a as ih =>
    intro zid h
    by_cases hc : a.domain = d
    · simp [findZone, hc] at h
      exact ⟨[], a, as, by simp, hc, h, by simp⟩
    · simp [findZone, hc] at h
      obtain ⟨pre, z, post, heq, hdom, hid, hpre⟩ := ih h
      refine ⟨a :: pre, z, post, by simp [heq], hdom, hid, ?_⟩
      intro z2 hz2
      rcases List.mem_cons.mp hz2 with h1 | h2
      · simpa [h1] using hc
      · exact hpre z2 h2

/-! ### Properties of the pagination loop -/

/-- Requests `⟨i, 3⟩, ⟨i+1, 3⟩, …` for `n` consecutive pages. -/
def pageReqs (i n : Nat) : List PageRequest :=
  (List.range' i n).map (fun j => ⟨j, 3⟩)

theorem pageReqs_length (i n : Nat) : (pageReqs i n).length = n := by
  simp [pageReqs]

theorem pageReqs_succ (i n : Nat) :
    pageReqs i (n + 1) = ⟨i, 3⟩ :: pageReqs (i + 1) n := by
  simp [pageReqs, List.range'_succ]

theorem resolveZoneIdGo_step (lp : Nat → Except String ZonesPage) (zn d : String)
    (fuel i : Nat) (acc : List PageRequest) (p : ZonesPage)
    (hlp : lp i = .ok p) (hfind : findZone d p.items = none)
    (hmore : p.hasMoreItems = true) :
    resolveZoneIdGo lp zn d (fuel + 1) i acc
      = resolveZoneIdGo lp zn d fuel (i + 1) (acc ++ [⟨i, 3⟩]) := by
  simp [resolveZoneIdGo, hlp, hfind, hmore]

theorem resolveZoneIdGo_success (lp : Nat → Except String ZonesPage)
    (zn d : String) (zid : Int) :
    ∀ (n i fuel : Nat) (acc : List PageRequest),
      (∀ j, i ≤ j → j < i + n →
        ∃ p, lp j = .ok p ∧ findZone d p.items = none ∧ p.hasMoreItems = true) →
      (∃ p, lp (i + n) = .ok p ∧ findZone d p.items = some zid) →
      n < fuel →
      resolveZoneIdGo lp zn d fuel i acc = some (.ok zid, acc ++ pageReqs i (n + 1)) := by
  intro n
  induction n with
  | zero =>
    intro i fuel acc _ hhit hfuel
    obtain ⟨p, hlp, hfind⟩ := hhit
    cases fuel with
    | zero => omega
    | succ f =>
      simp only [Nat.add_zero] at hlp
      simp [resolveZoneIdGo, hlp, hfind, pageReqs]
  | succ n ih =>
    intro i fuel acc hclean hhit hfuel
    cases fuel with
    | zero => omega
    | succ f =>
      obtain ⟨p, hlp, hfind, hmore⟩ := hclean i (Nat.le_refl i) (by omega)
      rw [resolveZoneIdGo_step lp zn d f i acc p hlp hfind hmore]
      have hhit2 : ∃ p, lp (i + 1 + n) = .ok p ∧ findZone d p.items = some zid := by
        have : i + 1 + n = i + (n + 1) := by omega
        rw [this]; exact hhit
      have hclean2 : ∀ j, i + 1 ≤ j → j < i + 1 + n →
          ∃ p, lp j = .ok p ∧ findZone d p.items = none ∧ p.hasMoreItems = true :=
        fun j h1 h2 => hclean j (by omega) (by omega)
      have hrec := ih (i + 1) f (acc ++ [(⟨i, 3⟩ : PageRequest)]) hclean2 hhit2 (by omega)
      rw [hrec, pageReqs_succ i (n + 1)]
      simp

theorem resolveZoneIdGo_notFound (lp : Nat → Except String ZonesPage)
    (zn d : String) :
    ∀ (n i fuel : Nat) (acc : List PageRequest),
      (∀ j, i ≤ j → j < i + n →
        ∃ p, lp j = .ok p ∧ findZone d p.items = none ∧ p.hasMoreItems = true) →
      (∃ p, lp (i + n) = .ok p ∧ findZone d p.items = none ∧ p.hasMoreItems = false) →
      n < fuel →
      resolveZoneIdGo lp zn d fuel i acc
        = some (.error (zoneNotFoundMsg zn), acc ++ pageReqs i (n + 1)) := by
  intro n
  induction n with
  | zero =>
    intro i fuel acc _ hlast hfuel
    obtain ⟨p, hlp, hfind, hmore⟩ := hlast
    cases fuel with
    | zero => omega
    | succ f =>
      simp only [Nat.add_zero] at hlp
      simp [resolveZoneIdGo, hlp, hfind, hmore, pageReqs]
  | succ n ih =>
    intro i fuel acc hclean hlast hfuel
    cases fuel with
    | zero => omega
    | succ f =>
      obtain ⟨p, hlp, hfind, hmore⟩ := hclean i (Nat.le_refl i) (by omega)
      rw [resolveZoneIdGo_step lp zn d f i acc p hlp hfind hmore]
      have hlast2 : ∃ p, lp (i + 1 + n) = .ok p ∧ findZone d p.items = none ∧
          p.hasMoreItems = false := by
        have : i + 1 + n = i + (n + 1) := by omega
        rw [this]; exact hlast
      have hclean2 : ∀ j, i + 1 ≤ j → j < i + 1 + n →
          ∃ p, lp j = .ok p ∧ findZone d p.items = none ∧ p.hasMoreItems = true :=
        fun j h1 h2 => hclean j (by omega) (by omega)
      have hrec := ih (i + 1) f (acc ++ [(⟨i, 3⟩ : PageRequest)]) hclean2 hlast2 (by omega)
      rw [hrec, pageReqs_succ i (n + 1)]
      simp

theorem resolveZoneIdGo_error (lp : Nat → Except String ZonesPage)
    (zn d : String) (e : String) :
    ∀ (n i fuel : Nat) (acc : List PageRequest),
      (∀ j, i ≤ j → j < i + n →
        ∃ p, lp j = .ok p ∧ findZone d p.items = none ∧ p.hasMoreItems = true) →
      lp (i + n) = .error e →
      n < fuel →
      resolveZoneIdGo lp zn d fuel i acc = some (.error e, acc ++ pageReqs i (n + 1)) := by
  intro n
  induction n with
  | zero =>
    intro i fuel acc _ herr hfuel
    cases fuel with
    | zero => omega
    | succ f =>
      simp only [Nat.add_zero] at herr
      simp [resolveZoneIdGo, herr, pageReqs]
  | succ n ih =>
    intro i fuel acc hclean herr hfuel
    cases fuel with
    | zero => omega
    | succ f =>
      obtain ⟨p, hlp, hfind, hmore⟩ := hclean i (Nat.le_refl i) (by omega)
      rw [resolveZoneIdGo_step lp zn d f i acc p hlp hfind hmore]
      have herr2 : lp (i + 1 + n) = .error e := by
        have : i + 1 + n = i + (n + 1) := by omega
        rw [this]; exact herr
      have hclean2 : ∀ j, i + 1 ≤ j → j < i + 1 + n →
          ∃ p, lp j = .ok p ∧ findZone d p.items = none ∧ p.hasMoreItems = true :=
        fun j h1 h2 => hclean j (by omega) (by omega)
      have hrec := ih (i + 1) f (acc ++ [(⟨i, 3⟩ : PageRequest)]) hclean2 herr2 (by omega)
      rw [hrec, pageReqs_succ i (n + 1)]
      simp

theorem resolveZoneIdGo_diverges (lp : Nat → Except String ZonesPage)
    (zn d : String)
    (h : ∀ j, 1 ≤ j →
      ∃ p, lp j = .ok p ∧ findZone d p.items = none ∧ p.hasMoreItems = true) :
    ∀ (fuel i : Nat) (acc : List PageRequest), 1 ≤ i →
      resolveZoneIdGo lp zn d fuel i acc = none := by
  intro fuel
  induction fuel with
  | zero => intro i acc _; rfl
  | succ f ih =>
    intro i acc hi
    obtain ⟨p, hlp, hfind, hmore⟩ := h i hi
    rw [resolveZoneIdGo_step lp zn d f i acc p hlp hfind hmore]
    exact ih (i + 1) (acc ++ [⟨i, 3⟩]) (by omega)

theorem resolveZoneIdGo_isSome (lp : Nat → Except String ZonesPage)
    (zn d : String) :
    ∀ (n i fuel : Nat) (acc : List PageRequest),
      n < fuel →
      (∃ p, lp (i + n) = .ok p ∧
        (findZone d p.items ≠ none ∨ p.hasMoreItems = false)) →
      (resolveZoneIdGo lp zn d fuel i acc).isSome = true := by
  intro n
  induction n with
  | zero =>
    intro i fuel acc hfuel hstop
    obtain ⟨p, hlp, hstop⟩ := hstop
    cases fuel with
    | zero => omega
    | succ f =>
      simp only [Nat.add_zero] at hlp
      cases hfz : findZone d p.items with
      | some zid => simp [resolveZoneIdGo, hlp, hfz]
      | none =>
        have hmore : p.hasMoreItems = false := by
          rcases hstop with h1 | h2
          · exact absurd hfz h1
          · exact h2
        simp [resolveZoneIdGo, hlp, hfz, hmore]
  | succ n ih =>
    intro i fuel acc hfuel hstop
    cases fuel with
    | zero => omega
    | succ f =>
      cases hlp : lp i with
      | error e => simp [resolveZoneIdGo, hlp]
      | ok p =>
        cases hfz : findZone d p.items with
        | some zid => simp [resolveZoneIdGo, hlp, hfz]
        | none =>
          cases hmore : p.hasMoreItems with
          | false => simp [resolveZoneIdGo, hlp, hfz, hmore]
          | true =>
            rw [resolveZoneIdGo_step lp zn d f i acc p hlp hfz hmore]
            have hstop2 : ∃ p, lp (i + 1 + n) = .ok p ∧
                (findZone d p.items ≠ none ∨ p.hasMoreItems = false) := by
              have : i + 1 + n = i + (n + 1) := by omega
              rw [this]; exact hstop
            exact ih (i + 1) f (acc ++ [⟨i, 3⟩]) (by omega) hstop2

/-! ### Properties of the Present / CleanUp pipelines -/

theorem Present_skip (secretGet : SecretStore) (api : BunnyAPI)
    (ch : ChallengeRequest) (fuel : Nat) (ak : String) (zid : Int)
    (reqs : List PageRequest) (recs : List DNSRecord) (r : DNSRecord)
    (hclient : newAPIClient secretGet ch = .ok ak)
    (hres : resolveZoneId api.listPages ch.resolvedZone fuel = some (.ok zid, reqs))
    (hget : api.getZone zid = .ok recs)
    (hmatch : findTXT (recordNameOf ch.resolvedFQDN ch.resolvedZone) ch.key recs = some r) :
    Present secretGet api ch fuel = some (.ok (), []) := by
  simp [Present, hclient, hres, hasTXTRecord, hget, hmatch]

theorem Present_add (secretGet : SecretStore) (api : BunnyAPI)
    (ch : ChallengeRequest) (fuel : Nat) (ak : String) (zid : Int)
    (reqs : List PageRequest) (recs : List DNSRecord)
    (hclient : newAPIClient secretGet ch = .ok ak)
    (hres : resolveZoneId api.listPages ch.resolvedZone fuel = some (.ok zid, reqs))
    (hget : api.getZone zid = .ok recs)
    (hnone : findTXT (recordNameOf ch.resolvedFQDN ch.resolvedZone) ch.key recs = none)
    (hadd : api.addResult = .ok ()) :
    Present secretGet api ch fuel
      = some (.ok (), [⟨zid, 3, recordNameOf ch.resolvedFQDN ch.resolvedZone, ch.key, 120⟩]) := by
  simp [Present, hclient, hres, hasTXTRecord, hget, hnone, hadd]

theorem CleanUp_clean (secretGet : SecretStore) (api : BunnyAPI)
    (ch : ChallengeRequest) (fuel : Nat) (ak : String) (zid : Int)
    (reqs : List PageRequest) (recs : List DNSRecord)
    (hclient : newAPIClient secretGet ch = .ok ak)
    (hres : resolveZoneId api.listPages ch.resolvedZone fuel = some (.ok zid, reqs))
    (hget : api.getZone zid = .ok recs)
    (hnone : findTXT (recordNameOf ch.resolvedFQDN ch.resolvedZone) ch.key recs = none) :
    CleanUp secretGet api ch fuel = some (.ok (), []) := by
  simp [CleanUp, hclient, hres, hasTXTRecord, hget, hnone]

theorem CleanUp_delete (secretGet : SecretStore) (api : BunnyAPI)
    (ch : ChallengeRequest) (fuel : Nat) (ak : String) (zid : Int)
    (reqs : List PageRequest) (recs : List DNSRecord) (r : DNSRecord)
    (hclient : newAPIClient secretGet ch = .ok ak)
    (hres : resolveZoneId api.listPages ch.resolvedZone fuel = some (.ok zid, reqs))
    (hget : api.getZone zid = .ok recs)
    (hmatch : findTXT (recordNameOf ch.resolvedFQDN ch.resolvedZone) ch.key recs = some r) :
    (∃ res, CleanUp secretGet api ch fuel = some (res, [⟨zid, r.id⟩]))
    ∧ (api.deleteResult = .ok () →
        CleanUp secretGet api ch fuel = some (.ok (), [⟨zid, r.id⟩])) := by
  constructor
  · cases hdel : api.deleteResult with
    | error e =>
      exact ⟨.error ("failed to delete TXT record: " ++ e),
        by simp [CleanUp, hclient, hres, hasTXTRecord, hget, hmatch, hdel]⟩
    | ok u =>
      exact ⟨.ok (), by simp [CleanUp, hclient, hres, hasTXTRecord, hget, hmatch, hdel]⟩
  · intro hdel
    simp [CleanUp, hclient, hres, hasTXTRecord, hget, hmatch, hdel]

/-! ### Claims -/

/-- C1: for every zone list partitioned into pages where the target domain
(the resolved zone name with any trailing dot stripped) first appears on page
`k`, `resolveZoneId` requests pages 1 through `k` in order (each with
`PerPage = 3`), performs exactly `k` page requests, and returns the ID of the
first zone whose domain field exactly equals the target, without fetching any
further pages. -/
theorem C1_resolveZoneId_short_circuit (lp : Nat → Except String ZonesPage)
    (zoneName : String) (zid : Int) (k fuel : Nat)
    (hk : 1 ≤ k) (hfuel : k ≤ fuel)
    (hclean : ∀ j, 1 ≤ j → j < k →
      ∃ p, lp j = .ok p ∧ findZone (trimSuffix zoneName ".") p.items = none ∧
        p.hasMoreItems = true)
    (hhit : ∃ p, lp k = .ok p ∧ findZone (trimSuffix zoneName ".") p.items = some zid) :
    resolveZoneId lp zoneName fuel = some (.ok zid, pageReqs 1 k)
    ∧ (pageReqs 1 k).length = k
    ∧ (∀ p, lp k = .ok p →
        ∃ pre z post, p.items = pre ++ z :: post ∧
          z.domain = trimSuffix zoneName "." ∧ z.id = zid ∧
          ∀ z2 ∈ pre, z2.domain ≠ trimSuffix zoneName ".") := by
  have hk1 : 1 + (k - 1) = k := by omega
  refine ⟨?_, pageReqs_length 1 k, ?_⟩
  · have h := resolveZoneIdGo_success lp zoneName (trimSuffix zoneName ".") zid
      (k - 1) 1 fuel []
      (fun j h1 h2 => hclean j h1 (by omega))
      (by rw [hk1]; exact hhit) (by omega)
    unfold resolveZoneId
    rw [h]
    have : k - 1 + 1 = k := by omega
    rw [this]
    simp
  · intro p hp
    obtain ⟨p2, hp2, hfz⟩ := hhit
    rw [hp] at hp2
    injection hp2 with hpp
    rw [← hpp] at hfz
    exact findZone_eq_some hfz

theorem C1_witness :
    resolveZoneId
        (fun j => if j = 1 then Except.ok ⟨[⟨1, "aa"⟩], true⟩
                  else Except.ok ⟨[⟨5, "example.com"⟩], false⟩)
        "example.com." 2
      = some (.ok 5, pageReqs 1 2)
    ∧ (pageReqs 1 2).length = 2 := by
  have h := C1_resolveZoneId_short_circuit
    (fun j => if j = 1 then Except.ok ⟨[⟨1, "aa"⟩], true⟩
              else Except.ok ⟨[⟨5, "example.com"⟩], false⟩)
    "example.com." 5 2 2 (by omega) (by omega)
    (fun j h1 h2 => by
      have hj : j = 1 := by omega
      subst hj
      exact ⟨⟨[⟨1, "aa"⟩], true⟩, by decide, by decide, rfl⟩)
    ⟨⟨[⟨5, "example.com"⟩], false⟩, by decide, by decide⟩
  exact ⟨h.1, h.2.1⟩

/-- C2: for every record list, the record scan of `hasTXTRecord` returns a
matching record if and only if some record has type 3 (TXT), name exactly
equal to the target name, and value exactly equal to the target value; when
no record matches all three conditions it returns absence (`.ok none`), not
an error, and any returned record satisfies all three conditions (so a record
differing in type, name, or value alone is never returned). -/
theorem C2_hasTXTRecord_exact_match (records : List DNSRecord) (name key : String) :
    hasTXTRecord (.ok records) name key = .ok (findTXT name key records)
    ∧ ((findTXT name key records).isSome = true ↔
        ∃ r ∈ records, r.type = 3 ∧ r.name = name ∧ r.value = key)
    ∧ (∀ r, findTXT name key records = some r →
        r ∈ records ∧ r.type = 3 ∧ r.name = name ∧ r.value = key)
    ∧ ((∀ r ∈ records, ¬(r.type = 3 ∧ r.name = name ∧ r.value = key)) →
        hasTXTRecord (.ok records) name key = .ok none) := by
  refine ⟨rfl, findTXT_isSome_iff name key records,
    fun r h => findTXT_eq_some h, fun h => ?_⟩
  have := (findTXT_eq_none_iff name key records).mpr h
  simp [hasTXTRecord, this]

theorem C2_witness :
    hasTXTRecord (.ok [⟨9, 3, "_acme-challenge", "tok"⟩]) "_acme-challenge" "tok"
      = .ok (findTXT "_acme-challenge" "tok" [⟨9, 3, "_acme-challenge", "tok"⟩])
    ∧ hasTXTRecord (.ok [⟨9, 5, "_acme-challenge", "tok"⟩]) "_acme-challenge" "tok"
      = .ok none := by
  exact ⟨(C2_hasTXTRecord_exact_match [⟨9, 3, "_acme-challenge", "tok"⟩]
      "_acme-challenge" "tok").1,
    (C2_hasTXTRecord_exact_match [⟨9, 5, "_acme-challenge", "tok"⟩]
      "_acme-challenge" "tok").2.2.2 (by decide)⟩

/-- C6: for every zone list in which the target domain never appears,
`resolveZoneId` visits each page exactly once in order, and when the final
page reports no more items it fails with the zone-not-found error; in
particular an empty first-page result set with the no-more-items flag leads
immediately to that failure (witnessed at `n = 1` with an empty page). -/
theorem C6_resolveZoneId_notFound (lp : Nat → Except String ZonesPage)
    (zoneName : String) (n fuel : Nat)
    (hn : 1 ≤ n) (hfuel : n ≤ fuel)
    (hclean : ∀ j, 1 ≤ j → j < n →
      ∃ p, lp j = .ok p ∧ findZone (trimSuffix zoneName ".") p.items = none ∧
        p.hasMoreItems = true)
    (hlast : ∃ p, lp n = .ok p ∧ findZone (trimSuffix zoneName ".") p.items = none ∧
      p.hasMoreItems = false) :
    resolveZoneId lp zoneName fuel
      = some (.error (zoneNotFoundMsg zoneName), pageReqs 1 n)
    ∧ (pageReqs 1 n).length = n := by
  have hn1 : 1 + (n - 1) = n := by omega
  refine ⟨?_, pageReqs_length 1 n⟩
  have h := resolveZoneIdGo_notFound lp zoneName (trimSuffix zoneName ".")
    (n - 1) 1 fuel []
    (fun j h1 h2 => hclean j h1 (by omega))
    (by rw [hn1]; exact hlast) (by omega)
  unfold resolveZoneId
  rw [h]
  have : n - 1 + 1 = n := by omega
  rw [this]
  simp

theorem C6_witness :
    resolveZoneId (fun _ => Except.ok ⟨[], false⟩) "example.com." 1
      = some (.error (zoneNotFoundMsg "example.com."), pageReqs 1 1)
    ∧ (pageReqs 1 1).length = 1 := by
  exact C6_resolveZoneId_notFound (fun _ => Except.ok ⟨[], false⟩)
    "example.com." 1 1 (by omega) (by omega)
    (fun j h1 h2 => absurd h2 (by omega))
    ⟨⟨[], false⟩, rfl, rfl, rfl⟩

/-- C7: if the remote zone-listing endpoint reports `HasMoreItems = true` on
every page and no page contains the target domain, `resolveZoneId` never
terminates (for every amount of fuel the loop is still running); conversely,
if some page either contains the target or reports no more items, the loop
terminates within that many iterations. -/
theorem C7_resolveZoneId_termination (lp : Nat → Except String ZonesPage)
    (zoneName : String) :
    ((∀ j, 1 ≤ j →
        ∃ p, lp j = .ok p ∧ findZone (trimSuffix zoneName ".") p.items = none ∧
          p.hasMoreItems = true) →
      ∀ fuel, resolveZoneId lp zoneName fuel = none)
    ∧ (∀ k, 1 ≤ k →
        (∃ p, lp k = .ok p ∧
          (findZone (trimSuffix zoneName ".") p.items ≠ none ∨ p.hasMoreItems = false)) →
        (resolveZoneId lp zoneName k).isSome = true) := by
  constructor
  · intro h fuel
    exact resolveZoneIdGo_diverges lp zoneName (trimSuffix zoneName ".") h fuel 1 []
      (by omega)
  · intro k hk hstop
    have hk1 : 1 + (k - 1) = k := by omega
    exact resolveZoneIdGo_isSome lp zoneName (trimSuffix zoneName ".")
      (k - 1) 1 k [] (by omega) (by rw [hk1]; exact hstop)

theorem C7_witness :
    resolveZoneId (fun _ => Except.ok ⟨[], true⟩) "example.com." 7 = none
    ∧ (resolveZoneId (fun _ => Except.ok ⟨[], false⟩) "example.com." 1).isSome = true := by
  exact ⟨(C7_resolveZoneId_termination (fun _ => Except.ok ⟨[], true⟩) "example.com.").1
      (fun j hj => ⟨⟨[], true⟩, rfl, rfl, rfl⟩) 7,
    (C7_resolveZoneId_termination (fun _ => Except.ok ⟨[], false⟩) "example.com.").2
      1 (by omega) ⟨⟨[], false⟩, rfl, Or.inr rfl⟩⟩

/-- C8: if the pages before page `k` scan clean and the page-`k` request
returns a transport/API error, the loop aborts immediately — pages 1 through
`k` are the only requests issued — and the error is surfaced to the caller
unchanged (the code returns `err` itself, adding no wrapper). -/
theorem C8_resolveZoneId_error_aborts (lp : Nat → Except String ZonesPage)
    (zoneName e : String) (k fuel : Nat)
    (hk : 1 ≤ k) (hfuel : k ≤ fuel)
    (hclean : ∀ j, 1 ≤ j → j < k →
      ∃ p, lp j = .ok p ∧ findZone (trimSuffix zoneName ".") p.items = none ∧
        p.hasMoreItems = true)
    (herr : lp k = .error e) :
    resolveZoneId lp zoneName fuel = some (.error e, pageReqs 1 k)
    ∧ (pageReqs 1 k).length = k := by
  have hk1 : 1 + (k - 1) = k := by omega
  refine ⟨?_, pageReqs_length 1 k⟩
  have h := resolveZoneIdGo_error lp zoneName (trimSuffix zoneName ".") e
    (k - 1) 1 fuel []
    (fun j h1 h2 => hclean j h1 (by omega))
    (by rw [hk1]; exact herr) (by omega)
  unfold resolveZoneId
  rw [h]
  have : k - 1 + 1 = k := by omega
  rw [this]
  simp

theorem C8_witness :
    resolveZoneId (fun _ => Except.error "connection refused") "example.com." 4
      = some (.error "connection refused", pageReqs 1 1)
    ∧ (pageReqs 1 1).length = 1 := by
  exact C8_resolveZoneId_error_aborts (fun _ => Except.error "connection refused")
    "example.com." "connection refused" 1 4 (by omega) (by omega)
    (fun j h1 h2 => absurd h2 (by omega)) rfl

/-- C3: `Present` is idempotent: if the zone's record set already contains a
TXT record with the derived name and the challenge key as value, `Present`
returns success without issuing a record-creation call; and invoking
`Present` twice with identical input (the first having succeeded and created
its record) issues exactly one creation call in total — the first call's
trace is the single creation and the second call's trace is empty. -/
theorem C3_present_idempotent (secretGet : SecretStore) (api api2 : BunnyAPI)
    (ch : ChallengeRequest) (fuel : Nat) (ak : String) (zid : Int)
    (reqs reqs2 : List PageRequest) (recs : List DNSRecord) (rid : Int)
    (hclient : newAPIClient secretGet ch = .ok ak)
    (hres : resolveZoneId api.listPages ch.resolvedZone fuel = some (.ok zid, reqs))
    (hget : api.getZone zid = .ok recs) :
    (∀ r, findTXT (recordNameOf ch.resolvedFQDN ch.resolvedZone) ch.key recs = some r →
      Present secretGet api ch fuel = some (.ok (), []))
    ∧ (findTXT (recordNameOf ch.resolvedFQDN ch.resolvedZone) ch.key recs = none →
       api.addResult = .ok () →
       resolveZoneId api2.listPages ch.resolvedZone fuel = some (.ok zid, reqs2) →
       api2.getZone zid
         = .ok (recs ++ [⟨rid, 3, recordNameOf ch.resolvedFQDN ch.resolvedZone, ch.key⟩]) →
       Present secretGet api ch fuel
         = some (.ok (), [⟨zid, 3, recordNameOf ch.resolvedFQDN ch.resolvedZone, ch.key, 120⟩])
       ∧ Present secretGet api2 ch fuel = some (.ok (), [])) := by
  constructor
  · intro r hmatch
    exact Present_skip secretGet api ch fuel ak zid reqs recs r hclient hres hget hmatch
  · intro hnone hadd hres2 hget2
    refine ⟨Present_add secretGet api ch fuel ak zid reqs recs
      hclient hres hget hnone hadd, ?_⟩
    have hmatch2 := findTXT_append_match hnone
      ⟨rid, 3, recordNameOf ch.resolvedFQDN ch.resolvedZone, ch.key⟩ ⟨rfl, rfl, rfl⟩
    exact Present_skip secretGet api2 ch fuel ak zid reqs2 _ _ hclient hres2 hget2 hmatch2

theorem C3_witness :
    Present (fun _ _ => Except.ok [("k", "sekrit")])
      ⟨(fun _ => Except.ok ⟨[⟨5, "example.com"⟩], false⟩),
        (fun _ => Except.ok []), Except.ok (), Except.ok ()⟩
      ⟨"_acme-challenge.example.com.", "example.com.", "abc123", "ns",
        some (.ok ⟨⟨"s", "k"⟩⟩)⟩ 1
      = some (.ok (), [⟨5, 3, "_acme-challenge", "abc123", 120⟩])
    ∧ Present (fun _ _ => Except.ok [("k", "sekrit")])
      ⟨(fun _ => Except.ok ⟨[⟨5, "example.com"⟩], false⟩),
        (fun _ => Except.ok [⟨7, 3, "_acme-challenge", "abc123"⟩]),
        Except.ok (), Except.ok ()⟩
      ⟨"_acme-challenge.example.com.", "example.com.", "abc123", "ns",
        some (.ok ⟨⟨"s", "k"⟩⟩)⟩ 1
      = some (.ok (), []) := by
  have h := (C3_present_idempotent (fun _ _ => Except.ok [("k", "sekrit")])
    ⟨(fun _ => Except.ok ⟨[⟨5, "example.com"⟩], false⟩),
      (fun _ => Except.ok []), Except.ok (), Except.ok ()⟩
    ⟨(fun _ => Except.ok ⟨[⟨5, "example.com"⟩], false⟩),
      (fun _ => Except.ok [⟨7, 3, "_acme-challenge", "abc123"⟩]),
      Except.ok (), Except.ok ()⟩
    ⟨"_acme-challenge.example.com.", "example.com.", "abc123", "ns",
      some (.ok ⟨⟨"s", "k"⟩⟩)⟩ 1 "sekrit" 5 [⟨1, 3⟩] [⟨1, 3⟩] [] 7
    (by decide) (by decide) (by decide)).2 (by decide) rfl (by decide) (by decide)
  exact h

/-- C4: `CleanUp` is idempotent on an already-clean state: when the zone
contains no TXT record matching the derived name and challenge key, `CleanUp`
returns success and issues no delete call; when a matching record exists, it
issues exactly one delete call carrying that record's ID. -/
theorem C4_cleanup_idempotent (secretGet : SecretStore) (api : BunnyAPI)
    (ch : ChallengeRequest) (fuel : Nat) (ak : String) (zid : Int)
    (reqs : List PageRequest) (recs : List DNSRecord)
    (hclient : newAPIClient secretGet ch = .ok ak)
    (hres : resolveZoneId api.listPages ch.resolvedZone fuel = some (.ok zid, reqs))
    (hget : api.getZone zid = .ok recs) :
    (findTXT (recordNameOf ch.resolvedFQDN ch.resolvedZone) ch.key recs = none →
      CleanUp secretGet api ch fuel = some (.ok (), []))
    ∧ (∀ r, findTXT (recordNameOf ch.resolvedFQDN ch.resolvedZone) ch.key recs = some r →
        (∃ res, CleanUp secretGet api ch fuel = some (res, [⟨zid, r.id⟩]))
        ∧ (api.deleteResult = .ok () →
            CleanUp secretGet api ch fuel = some (.ok (), [⟨zid, r.id⟩]))) := by
  constructor
  · intro hnone
    exact CleanUp_clean secretGet api ch fuel ak zid reqs recs hclient hres hget hnone
  · intro r hmatch
    exact CleanUp_delete secretGet api ch fuel ak zid reqs recs r hclient hres hget hmatch

theorem C4_witness :
    CleanUp (fun _ _ => Except.ok [("k", "sekrit")])
      ⟨(fun _ => Except.ok ⟨[⟨5, "example.com"⟩], false⟩),
        (fun _ => Except.ok []), Except.ok (), Except.ok ()⟩
      ⟨"_acme-challenge.example.com.", "example.com.", "abc123", "ns",
        some (.ok ⟨⟨"s", "k"⟩⟩)⟩ 1
      = some (.ok (), [])
    ∧ CleanUp (fun _ _ => Except.ok [("k", "sekrit")])
      ⟨(fun _ => Except.ok ⟨[⟨5, "example.com"⟩], false⟩),
        (fun _ => Except.ok [⟨9, 3, "_acme-challenge", "abc123"⟩]),
        Except.ok (), Except.ok ()⟩
      ⟨"_acme-challenge.example.com.", "example.com.", "abc123", "ns",
        some (.ok ⟨⟨"s", "k"⟩⟩)⟩ 1
      = some (.ok (), [⟨5, 9⟩]) := by
  refine ⟨(C4_cleanup_idempotent (fun _ _ => Except.ok [("k", "sekrit")])
      ⟨(fun _ => Except.ok ⟨[⟨5, "example.com"⟩], false⟩),
        (fun _ => Except.ok []), Except.ok (), Except.ok ()⟩
      ⟨"_acme-challenge.example.com.", "example.com.", "abc123", "ns",
        some (.ok ⟨⟨"s", "k"⟩⟩)⟩ 1 "sekrit" 5 [⟨1, 3⟩] []
      (by decide) (by decide) (by decide)).1 (by decide), ?_⟩
  exact ((C4_cleanup_idempotent (fun _ _ => Except.ok [("k", "sekrit")])
      ⟨(fun _ => Except.ok ⟨[⟨5, "example.com"⟩], false⟩),
        (fun _ => Except.ok [⟨9, 3, "_acme-challenge", "abc123"⟩]),
        Except.ok (), Except.ok ()⟩
      ⟨"_acme-challenge.example.com.", "example.com.", "abc123", "ns",
        some (.ok ⟨⟨"s", "k"⟩⟩)⟩ 1 "sekrit" 5 [⟨1, 3⟩]
      [⟨9, 3, "_acme-challenge", "abc123"⟩]
      (by decide) (by decide) (by decide)).2
    ⟨9, 3, "_acme-challenge", "abc123"⟩ (by decide)).2 rfl

/-- C5: end-to-end scenario for the challenge with fully-qualified domain
`_acme-challenge.example.com.`, resolved zone `example.com.` and key
`abc123`: the derived record name is `_acme-challenge`; the zone whose domain
equals `example.com` (ID 5) is resolved; `Present` (finding no existing
match) issues one creation call with name `_acme-challenge`, value `abc123`,
TTL 120, type 3; a subsequent `CleanUp`, seeing the created record (ID 9),
issues one delete call with that ID. -/
theorem C5_end_to_end_scenario :
    recordNameOf "_acme-challenge.example.com." "example.com." = "_acme-challenge"
    ∧ resolveZoneId (fun _ => Except.ok ⟨[⟨5, "example.com"⟩], false⟩) "example.com." 1
        = some (.ok 5, [⟨1, 3⟩])
    ∧ Present (fun _ _ => Except.ok [("k", "sekrit")])
        ⟨(fun _ => Except.ok ⟨[⟨5, "example.com"⟩], false⟩),
          (fun _ => Except.ok []), Except.ok (), Except.ok ()⟩
        ⟨"_acme-challenge.example.com.", "example.com.", "abc123", "ns",
          some (.ok ⟨⟨"s", "k"⟩⟩)⟩ 1
        = some (.ok (), [⟨5, 3, "_acme-challenge", "abc123", 120⟩])
    ∧ CleanUp (fun _ _ => Except.ok [("k", "sekrit")])
        ⟨(fun _ => Except.ok ⟨[⟨5, "example.com"⟩], false⟩),
          (fun _ => Except.ok [⟨9, 3, "_acme-challenge", "abc123"⟩]),
          Except.ok (), Except.ok ()⟩
        ⟨"_acme-challenge.example.com.", "example.com.", "abc123", "ns",
          some (.ok ⟨⟨"s", "k"⟩⟩)⟩ 1
        = some (.ok (), [⟨5, 9⟩]) := by
  refine ⟨by decide, by decide, by decide, by decide⟩

/-- C9: for every challenge request whose `ResolvedFQDN` does not end with
the `ResolvedZone` string, the derived record name used by both `Present` and
`CleanUp` is the entire `ResolvedFQDN` with at most one trailing dot removed
(the zone-suffix stripping is a no-op), and both operations proceed with that
name rather than failing. -/
theorem C9_zone_suffix_mismatch_noop (secretGet : SecretStore) (api : BunnyAPI)
    (ch : ChallengeRequest) (fuel : Nat) (ak : String) (zid : Int)
    (reqs : List PageRequest) (recs : List DNSRecord)
    (h : ch.resolvedZone.data.isSuffixOf ch.resolvedFQDN.data = false)
    (hclient : newAPIClient secretGet ch = .ok ak)
    (hres : resolveZoneId api.listPages ch.resolvedZone fuel = some (.ok zid, reqs))
    (hget : api.getZone zid = .ok recs) :
    recordNameOf ch.resolvedFQDN ch.resolvedZone = trimSuffix ch.resolvedFQDN "."
    ∧ (findTXT (trimSuffix ch.resolvedFQDN ".") ch.key recs = none →
        api.addResult = .ok () →
        Present secretGet api ch fuel
          = some (.ok (), [⟨zid, 3, trimSuffix ch.resolvedFQDN ".", ch.key, 120⟩]))
    ∧ (∀ r, findTXT (trimSuffix ch.resolvedFQDN ".") ch.key recs = some r →
        api.deleteResult = .ok () →
        CleanUp secretGet api ch fuel = some (.ok (), [⟨zid, r.id⟩])) := by
  have hzone : trimSuffix ch.resolvedFQDN ch.resolvedZone = ch.resolvedFQDN := by
    unfold trimSuffix
    rw [h]
    simp
  have hrn : recordNameOf ch.resolvedFQDN ch.resolvedZone
      = trimSuffix ch.resolvedFQDN "." := by
    unfold recordNameOf
    rw [hzone]
  refine ⟨hrn, ?_, ?_⟩
  · intro hnone hadd
    have := Present_add secretGet api ch fuel ak zid reqs recs hclient hres hget
      (by rw [hrn]; exact hnone) hadd
    rw [this, hrn]
  · intro r hmatch hdel
    exact (CleanUp_delete secretGet api ch fuel ak zid reqs recs r hclient hres hget
      (by rw [hrn]; exact hmatch)).2 hdel

theorem C9_witness :
    recordNameOf "_acme-challenge.other.org." "example.com."
      = trimSuffix "_acme-challenge.other.org." "."
    ∧ Present (fun _ _ => Except.ok [("k", "sekrit")])
        ⟨(fun _ => Except.ok ⟨[⟨5, "example.com"⟩], false⟩),
          (fun _ => Except.ok []), Except.ok (), Except.ok ()⟩
        ⟨"_acme-challenge.other.org.", "example.com.", "abc123", "ns",
          some (.ok ⟨⟨"s", "k"⟩⟩)⟩ 1
        = some (.ok (),
            [⟨5, 3, trimSuffix "_acme-challenge.other.org." ".", "abc123", 120⟩]) := by
  have h := C9_zone_suffix_mismatch_noop (fun _ _ => Except.ok [("k", "sekrit")])
    ⟨(fun _ => Except.ok ⟨[⟨5, "example.com"⟩], false⟩),
      (fun _ => Except.ok []), Except.ok (), Except.ok ()⟩
    ⟨"_acme-challenge.other.org.", "example.com.", "abc123", "ns",
      some (.ok ⟨⟨"s", "k"⟩⟩)⟩ 1 "sekrit" 5 [⟨1, 3⟩] []
    (by decide) (by decide) (by decide) (by decide)
  exact ⟨h.1, h.2.1 (by decide) rfl⟩

/-- C10: for every challenge request whose embedded configuration JSON is
absent (nil), `loadConfig` returns the zero-valued configuration with no
error, and `Present`/`CleanUp` then fail with the "undefined access key
secret" error from the empty secret-name check rather than a
configuration-decode error, issuing no mutation call. -/
theorem C10_nil_config_fails_undefined_secret (secretGet : SecretStore)
    (api : BunnyAPI) (fqdn zone key ns : String) (fuel : Nat) :
    loadConfig none = .ok zeroBunnyConfig
    ∧ Present secretGet api ⟨fqdn, zone, key, ns, none⟩ fuel
        = some (.error "undefined access key secret", [])
    ∧ CleanUp secretGet api ⟨fqdn, zone, key, ns, none⟩ fuel
        = some (.error "undefined access key secret", []) := by
  exact ⟨rfl, rfl, rfl⟩
